import Mathlib

/-!
Shallow embedding of the anime_site spreadsheet-sync engine
(`src/sheets_sync.py`, with the ORM schema of `src/database.py`).

Spreadsheet cells are raw `String`s; cleaned canonical values are `Val`;
a persisted record (`AnimeEntry`) is modelled as a total map
`Field → Val` (mirroring Python's `setattr`/`getattr` access), a row of
the sheet as the header-keyed dictionary `Field → String` (mirroring
`row_data.get(name, "")`).  All functions are translated directly from
the Python source; comments cite the source lines.
-/

namespace AnimeSite

/-- Whitespace characters removed by Python's `str.strip()` and matched
by the regex class `\s` (ASCII fragment). -/
def isSpaceChar (c : Char) : Bool :=
  c = ' ' || c = '\t' || c = '\n' || c = '\r' || c = '\x0b' || c = '\x0c'

/-- Python `str.strip()` on a character list. -/
def stripChars (cs : List Char) : List Char :=
  ((cs.dropWhile isSpaceChar).reverse.dropWhile isSpaceChar).reverse

/-- Python `str.strip()`. -/
def pyStrip (s : String) : String :=
  String.mk (stripChars s.data)

/-- Numeric value of a list of ASCII digits (most significant first). -/
def digitsToNat (ds : List Char) : Nat :=
  ds.foldl (fun a c => a * 10 + (c.toNat - '0'.toNat)) 0

/-- Python `int(s)` on a string: optional surrounding whitespace,
optional sign, then decimal digits; anything else raises `ValueError`
(modelled as `none`). -/
def pyParseInt (s : String) : Option Int :=
  let t := stripChars s.data
  let core : Option (Bool × List Char) :=
    match t with
    | '+' :: rest => some (false, rest)
    | '-' :: rest => some (true, rest)
    | l => some (false, l)
  match core with
  | some (neg, ds) =>
    if ds ≠ [] ∧ ds.all Char.isDigit then
      some (if neg then -(digitsToNat ds : Int) else (digitsToNat ds : Int))
    else none
  | none => none

/-- Does `needle` occur as a contiguous substring of `hay`?  Models
Python's `needle in hay` (used for the `"429" in str(e)` check). -/
def listContainsSub (needle : List Char) : List Char → Bool
  | [] => needle.isEmpty
  | c :: cs => needle.isPrefixOf (c :: cs) || listContainsSub needle cs

/-- Python `needle in hay` for strings. -/
def strContainsSub (hay needle : String) : Bool :=
  listContainsSub needle.data hay.data

/-- A cleaned canonical cell value: Python `None`, `str`, `int` or
`float` (floats modelled as rationals). -/
inductive Val where
  | none
  | str (s : String)
  | int (n : Int)
  | num (q : Rat)
deriving DecidableEq, Repr

/-- Attribute / header names used by the engine: the columns of the
`anime_library` table (`src/database.py`) together with the sheet
header `series_season`.  `cover_image_url` and `mal_rating` exist only
in the database (enrichment data), never in the sheet-derived
`entry_data` mapping; `series_season`, conversely, is a sheet header
and an `entry_data` key but NOT a column of `AnimeEntry`. -/
inductive Field where
  | system_id
  | series_en
  | series_roman
  | series_cn
  | series_season
  | series_season_en
  | series_season_roman
  | series_season_cn
  | alt_name
  | airing_type
  | my_progress
  | airing_status
  | ep_total
  | ep_fin
  | rating_mine
  | main_spinoff
  | release_date
  | studio
  | director
  | producer
  | distributor_tw
  | genre_main
  | genre_sub
  | remark
  | mal_id
  | mal_link
  | anilist_link
  | op
  | ed
  | insert_ost
  | seiyuu
  | source_baha
  | source_netflix
  | mal_rating
  | cover_image_url
deriving DecidableEq, Repr

/-- A persisted record, accessed attribute-wise like the ORM object. -/
def Entry : Type := Field → Val

/-- A sheet row as the dictionary `dict(zip(headers, padded_row))`,
looked up with `row_data.get(name, "")`: absent headers yield `""`. -/
def RawRow : Type := Field → String

/-- Models `clean_value(val)` (default `expected_type=str`), sheets_sync.py
lines 54-65: blank/whitespace-only → `None`, otherwise the stripped
string. -/
def cleanStr (v : String) : Val :=
  if pyStrip v = "" then Val.none else Val.str (pyStrip v)

/-- Models `clean_value(val, int)`: blank → `None`; non-numeric text → `None`
(the `ValueError` branch); otherwise the parsed integer. -/
def cleanInt (v : String) : Val :=
  if pyStrip v = "" then Val.none
  else
    match pyParseInt v with
    | some n => Val.int n
    | Option.none => Val.none

/-- Drop a literal character-list prefix, case-sensitively. -/
def dropLit : List Char → List Char → Option (List Char)
  | [], cs => some cs
  | _, [] => Option.none
  | l :: ls, c :: cs => if c = l then dropLit ls cs else Option.none

/-- Drop a literal character-list prefix, case-insensitively
(models `re.IGNORECASE` on ASCII letters). -/
def dropLitCI : List Char → List Char → Option (List Char)
  | [], cs => some cs
  | _, [] => Option.none
  | l :: ls, c :: cs => if c.toLower = l.toLower then dropLitCI ls cs else Option.none

/-- The literal part of the MAL-link regex
`myanimelist\.net/anime/(\d+)` (line 72). -/
def malLinkLit : List Char := "myanimelist.net/anime/".data

/-- Try to match `myanimelist\.net/anime/(\d+)` at the head of the
list, returning the captured number. -/
def malIdAt (cs : List Char) : Option Nat :=
  match dropLit malLinkLit cs with
  | some rest =>
    let ds := rest.takeWhile Char.isDigit
    if ds.isEmpty then Option.none else some (digitsToNat ds)
  | Option.none => Option.none

/-- Leftmost search for the MAL-link pattern (`re.search`). -/
def searchMalId : List Char → Option Nat
  | [] => Option.none
  | c :: cs =>
    match malIdAt (c :: cs) with
    | some n => some n
    | Option.none => searchMalId cs

/-- Models `extract_mal_id(mal_link)`, lines 68-75: `None` for a falsy link,
otherwise the integer ID captured from the URL. -/
def extract_mal_id (mal_link : String) : Option Int :=
  if mal_link = "" then Option.none
  else (searchMalId mal_link.data).map (fun n => (n : Int))

/-- Try to match `Season\s\d+(?:\sPart\s\d+)?` (case-insensitive) at
the head of the list; returns the length of the (greedy) match.
Greedy `\d+` followed by the optional `\sPart\s\d+` group needs no
backtracking: shrinking `\d+` can never let `\s` match a digit. -/
def matchSeasonAt (cs : List Char) : Option Nat :=
  match dropLitCI "season".data cs with
  | Option.none => Option.none
  | some r1 =>
    match r1 with
    | [] => Option.none
    | c :: r2 =>
      if isSpaceChar c then
        let ds := r2.takeWhile Char.isDigit
        if ds.isEmpty then Option.none
        else
          let base := 6 + 1 + ds.length
          let r3 := r2.drop ds.length
          match r3 with
          | [] => some base
          | c2 :: r4 =>
            if isSpaceChar c2 then
              match dropLitCI "part".data r4 with
              | some (c3 :: r5) =>
                if isSpaceChar c3 then
                  let ds2 := r5.takeWhile Char.isDigit
                  if ds2.isEmpty then some base
                  else some (base + 1 + 4 + 1 + ds2.length)
                else some base
              | some [] => some base
              | Option.none => some base
            else some base
      else Option.none

/-- Leftmost `re.search` for the season pattern; returns the matched
substring (= capture group 1). -/
def searchSeasonEn : List Char → Option (List Char)
  | [] => Option.none
  | c :: cs =>
    match matchSeasonAt (c :: cs) with
    | some n => some ((c :: cs).take n)
    | Option.none => searchSeasonEn cs

/-- Python `str.title()` restricted to its ASCII behaviour: a letter
that follows a letter is lowercased, any other letter is uppercased. -/
def pyTitleGo : List Char → Bool → List Char
  | [], _ => []
  | c :: cs, prevAlpha =>
    (if c.isAlpha then (if prevAlpha then c.toLower else c.toUpper) else c)
      :: pyTitleGo cs c.isAlpha

/-- Python `str.title()`. -/
def pyTitle (cs : List Char) : List Char := pyTitleGo cs false

/-- Models `extract_season_from_title(title_en)`, lines 78-87. -/
def extract_season_from_title (title_en : String) : Option String :=
  if title_en = "" then Option.none
  else (searchSeasonEn title_en.data).map (fun m => String.mk (pyTitle m))

/-- The CJK numerals of the character class `[一二三四五六七八九十]`. -/
def cjkNumerals : List Char := ['一', '二', '三', '四', '五', '六', '七', '八', '九', '十']

/-- Membership in the CJK-numeral class. -/
def isCjkNumeral (c : Char) : Bool := cjkNumerals.contains c

/-- The `cn_to_num` dictionary (lines 103-114), keyed by the
single-character numerals. -/
def cnToNum (c : Char) : Option Nat :=
  if c = '一' then some 1
  else if c = '二' then some 2
  else if c = '三' then some 3
  else if c = '四' then some 4
  else if c = '五' then some 5
  else if c = '六' then some 6
  else if c = '七' then some 7
  else if c = '八' then some 8
  else if c = '九' then some 9
  else if c = '十' then some 10
  else Option.none

/-- Try to match `第\s*([一二三四五六七八九十]+|\d+)\s*季` at the head
of the list, returning the captured numeral group.  The two alternation
branches start with disjoint character classes and `\s*` is followed by
the fixed `季`, so greedy matching without backtracking is exact. -/
def matchCnSeasonAt (cs : List Char) : Option (List Char) :=
  match cs with
  | [] => Option.none
  | c :: r1 =>
    if c = '第' then
      let r2 := r1.dropWhile isSpaceChar
      let grp := r2.takeWhile isCjkNumeral
      if grp.isEmpty then
        let ds := r2.takeWhile Char.isDigit
        if ds.isEmpty then Option.none
        else
          match (r2.drop ds.length).dropWhile isSpaceChar with
          | '季' :: _ => some ds
          | _ => Option.none
      else
        match (r2.drop grp.length).dropWhile isSpaceChar with
        | '季' :: _ => some grp
        | _ => Option.none
    else Option.none

/-- Leftmost `re.search` for the Chinese season pattern. -/
def searchSeasonCn : List Char → Option (List Char)
  | [] => Option.none
  | c :: cs =>
    match matchCnSeasonAt (c :: cs) with
    | some g => some g
    | Option.none => searchSeasonCn cs

/-- Models `extract_season_from_cn_title(title_cn)`, lines 90-119: on a match,
an all-digit group is used verbatim (`f"Season {num_str}"`), otherwise
the group is looked up in `cn_to_num` (whose keys are single
characters, so a multi-numeral group yields `None`). -/
def extract_season_from_cn_title (title_cn : String) : Option String :=
  if title_cn = "" then Option.none
  else
    match searchSeasonCn title_cn.data with
    | Option.none => Option.none
    | some grp =>
      if grp.all Char.isDigit then some ("Season " ++ String.mk grp)
      else
        match grp with
        | [c] =>
          match cnToNum c with
          | some n => some ("Season " ++ toString n)
          | Option.none => Option.none
        | _ => Option.none

/-! ### RetryExecutor (`execute_with_retry`, lines 16-35) -/

/-- Outcome of one attempt of the wrapped callable: a return value, a
`gspread` `APIError` (carrying `str(e)`), or any other exception. -/
inductive CallOutcome (α : Type) where
  | ok (v : α)
  | apiError (msg : String)
  | otherError (msg : String)
deriving DecidableEq, Repr

/-- The rate-limit classification, `"429" in str(e)` (line 25). -/
def is429 (msg : String) : Bool := strContainsSub msg "429"

/-- How `execute_with_retry` terminates. -/
inductive RetryErr where
  | raised (msg : String)
  | exhausted (opName : String) (budget : Nat)
deriving DecidableEq, Repr

/-- The attempt loop of `execute_with_retry`: `attempt` is the 0-based
loop variable, `remaining` the attempts left, `waits` the log of
`time.sleep` durations performed so far (line 26: `60 * (attempt + 1)`
seconds). -/
def retryGo (f : Nat → CallOutcome α) (opName : String) (maxRetries : Nat) :
    Nat → Nat → List Nat → Except RetryErr α × List Nat
  | _, 0, waits => (Except.error (RetryErr.exhausted opName maxRetries), waits)
  | attempt, remaining + 1, waits =>
    match f attempt with
    | CallOutcome.ok v => (Except.ok v, waits)
    | CallOutcome.apiError m =>
      if is429 m then
        retryGo f opName maxRetries (attempt + 1) remaining (waits ++ [60 * (attempt + 1)])
      else (Except.error (RetryErr.raised m), waits)
    | CallOutcome.otherError m => (Except.error (RetryErr.raised m), waits)

/-- Models `execute_with_retry(func, max_retries=3)`: the result together with
the list of backoff waits performed. -/
def execute_with_retry (f : Nat → CallOutcome α) (opName : String)
    (maxRetries : Nat := 3) : Except RetryErr α × List Nat :=
  retryGo f opName maxRetries 0 maxRetries []

/-- The backoff waits produced by `k` consecutive rate-limited attempts
starting at 0-based attempt number `attempt`:
`60 × (attempt + 1), 60 × (attempt + 2), …`. -/
def backoffWaits (attempt : Nat) : Nat → List Nat
  | 0 => []
  | k + 1 => 60 * (attempt + 1) :: backoffWaits (attempt + 1) k

/-- A callable that hits the quota twice and then succeeds (used to
witness the retry contract). -/
def retryWitnessF : Nat → CallOutcome Nat := fun i =>
  if i < 2 then CallOutcome.apiError "APIError: [429]: Quota exceeded"
  else CallOutcome.ok 7

/-! ### Reconciler merge (`sync_sheet_to_db` lines 448-464) -/

/-- The sticky enrichment fields of the merge loop (line 455:
`key in ["cover_image_url", "mal_rating"]`). -/
def stickyFields : List Field := [Field.cover_image_url, Field.mal_rating]

/-- The update branch of the reconciler (lines 451-460): iterate over
`entry_data.items()`, skipping a sticky key whose currently stored
value is non-null, otherwise `setattr`; the check reads the record as
already mutated by earlier iterations (same object). -/
def mergeEntry (existing : Entry) (data : List (Field × Val)) : Entry :=
  data.foldl
    (fun e kv =>
      if kv.1 ∈ stickyFields ∧ e kv.1 ≠ Val.none then e
      else Function.update e kv.1 kv.2)
    existing

/-- A fresh record whose listed attributes are set from the mapping and
whose other columns are null. -/
def newEntryFrom (data : List (Field × Val)) : Entry :=
  data.foldl (fun e kv => Function.update e kv.1 kv.2) (fun _ => Val.none)

/-- The attributes the `AnimeEntry` class actually has
(`src/database.py` lines 27-82): every `Field` except `series_season`,
which is a sheet header only. -/
def animeEntryColumns : List Field :=
  [ Field.system_id, Field.series_en, Field.series_roman, Field.series_cn,
    Field.series_season_en, Field.series_season_roman, Field.series_season_cn,
    Field.alt_name, Field.airing_type, Field.my_progress, Field.airing_status,
    Field.ep_total, Field.ep_fin, Field.rating_mine, Field.main_spinoff,
    Field.release_date, Field.studio, Field.director, Field.producer,
    Field.distributor_tw, Field.genre_main, Field.genre_sub, Field.remark,
    Field.mal_id, Field.mal_link, Field.anilist_link, Field.op, Field.ed,
    Field.insert_ost, Field.seiyuu, Field.source_baha, Field.source_netflix,
    Field.mal_rating, Field.cover_image_url ]

/-- Models `AnimeEntry(**entry_data)` (line 462): SQLAlchemy's declarative
constructor checks `hasattr(cls, k)` for every keyword and raises
`TypeError` on the first unknown one; otherwise it `setattr`s each
value. -/
def declarativeNew (data : List (Field × Val)) : Except String Entry :=
  if data.all (fun kv => animeEntryColumns.contains kv.1) then
    Except.ok (newEntryFrom data)
  else
    Except.error "TypeError: invalid keyword argument for AnimeEntry"

/-! ### Enrichment (`fetch_mal_data` / `enrich_anime_database`,
lines 223-291) -/

/-- The dictionary returned by a successful `fetch_mal_data`: both
values may individually be `None` in the API response. -/
structure MalData where
  cover_image_url : Val
  mal_rating : Val
deriving DecidableEq, Repr

/-- Python truthiness of a cleaned value (`if mal_data["..."]:`). -/
def pyTruthy : Val → Bool
  | Val.none => false
  | Val.str s => s ≠ ""
  | Val.int n => n ≠ 0
  | Val.num q => q ≠ 0

/-- SQL `!=` under three-valued logic: `NULL != x` is not satisfied
(which is why the source adds the explicit `.is_(None)` disjunct,
lines 257-258). -/
def sqlNe (v : Val) (s : String) : Bool :=
  match v with
  | Val.none => false
  | w => w ≠ Val.str s

/-- The enrichment selection filter (lines 248-264):
`mal_id IS NOT NULL AND (cover_image_url IS NULL OR (mal_rating IS NULL
AND (airing_status != 'Not Yet Aired' OR airing_status IS NULL)))`. -/
def eligibleForEnrichment (e : Entry) : Bool :=
  (e Field.mal_id ≠ Val.none) &&
    ((e Field.cover_image_url = Val.none) ||
      ((e Field.mal_rating = Val.none) &&
        (sqlNe (e Field.airing_status) "Not Yet Aired" ||
          (e Field.airing_status = Val.none))))

/-- The per-record merge of a fetch result (lines 280-284): assigns a
field only when the fetched value is truthy; returns the updated record
and whether `enriched_count` was incremented. -/
def mergeMalData (e : Entry) (md : Option MalData) : Entry × Bool :=
  match md with
  | Option.none => (e, false)
  | some m =>
    let e1 := if pyTruthy m.cover_image_url
      then Function.update e Field.cover_image_url m.cover_image_url else e
    let e2 := if pyTruthy m.mal_rating
      then Function.update e1 Field.mal_rating m.mal_rating else e1
    (e2, true)

/-- Look up the fetch result for a record by its `mal_id` attribute. -/
def fetchFor (fetch : Int → Option MalData) (e : Entry) : Option MalData :=
  match e Field.mal_id with
  | Val.int n => fetch n
  | _ => Option.none

/-- One record's pass through the enrichment loop: untouched unless
selected by the filter. -/
def enrichEntry (fetch : Int → Option MalData) (e : Entry) : Entry :=
  if eligibleForEnrichment e then (mergeMalData e (fetchFor fetch e)).1 else e

/-- The `enriched_count` reported by `enrich_anime_database` over an
association list of records. -/
def enrichCount (fetch : Int → Option MalData) (db : List (String × Entry)) : Nat :=
  (db.filter fun ke =>
    eligibleForEnrichment ke.2 && (fetchFor fetch ke.2).isSome).length

/-- Observable events of the enrichment loop body (lines 276-288): one
metadata fetch (with its outcome) per selected record, then the
unconditional `time.sleep(2)`. -/
inductive EnrichEvent where
  | fetchEv (id : Int) (result : Option MalData)
  | sleepEv (seconds : Nat)
deriving DecidableEq, Repr

/-- Is the event a metadata fetch? -/
def isFetchEvent : EnrichEvent → Bool
  | EnrichEvent.fetchEv _ _ => true
  | EnrichEvent.sleepEv _ => false

/-- The event trace of the enrichment loop over the selected ids: the
loop body performs the fetch, merges (no external event), and always
sleeps 2 seconds, whatever the fetch outcome was. -/
def enrichTrace (ids : List Int) (fetch : Int → Option MalData) : List EnrichEvent :=
  ids.flatMap fun i => [EnrichEvent.fetchEv i (fetch i), EnrichEvent.sleepEv 2]

/-! ### The sync pipeline (`sync_sheet_to_db`, lines 299-498) -/

/-- A queued write-back to the spreadsheet: `gspread.Cell(row, col,
value)`, with the column identified by its header name and numeric
values rendered as the strings a re-read of the sheet yields. -/
structure Patch where
  rowIdx : Nat
  field : Field
  value : String
deriving DecidableEq, Repr

/-- Where a failure is injected into the run (the `try` block covers
the reconciliation loop, the patch flush, the commit and enrichment;
`atRow pos` raises upon reaching the `pos`-th data row, `atFlushChunk
j` upon the `j`-th chunked `update_cells` call). -/
inductive FailPoint where
  | noFail
  | atRow (pos : Nat)
  | atFlushChunk (j : Nat)
  | atCommit
deriving DecidableEq, Repr

/-- Models `series_counts` (lines 322-325): how often a cleaned `series_en`
value occurs across the batch (`get` of a missing key = 0). -/
def seriesCounts (rows : List RawRow) (name : String) : Nat :=
  (rows.filter fun r => cleanStr (r Field.series_en) = Val.str name).length

/-- The season-inference block (lines 365-391): only when the season
cell is blank, try the English title, then the Chinese title, then the
single-franchise-entry default `"Season 1"`. -/
def inferSeason (seasonCell enCell cnCell : String) (seriesEn : Val)
    (counts : String → Nat) : Option String :=
  if pyStrip seasonCell = "" then
    match extract_season_from_title enCell with
    | some s => some s
    | Option.none =>
      match extract_season_from_cn_title cnCell with
      | some s => some s
      | Option.none =>
        match seriesEn with
        | Val.str name => if counts name = 1 then some "Season 1" else Option.none
        | _ => Option.none
  else Option.none

/-- Python `str.lower()` (ASCII). -/
def lowerStr (s : String) : String := String.mk (s.data.map Char.toLower)

/-- The `entry_data` mapping (lines 415-446), in source order.  Note
that neither `cover_image_url` nor `mal_rating` has a key. -/
def buildEntryData (row : RawRow) (sid : String) (seasonVal : String)
    (atv epVal malV : Val) : List (Field × Val) :=
  [ (Field.system_id, Val.str sid),
    (Field.series_en, cleanStr (row Field.series_en)),
    (Field.series_season_en, cleanStr (row Field.series_season_en)),
    (Field.series_season_roman, cleanStr (row Field.series_season_roman)),
    (Field.series_season_cn, cleanStr (row Field.series_season_cn)),
    (Field.series_season, cleanStr seasonVal),
    (Field.airing_type, atv),
    (Field.my_progress, cleanStr (row Field.my_progress)),
    (Field.airing_status, cleanStr (row Field.airing_status)),
    (Field.ep_total, epVal),
    (Field.ep_fin, cleanInt (row Field.ep_fin)),
    (Field.rating_mine, cleanStr (row Field.rating_mine)),
    (Field.main_spinoff, cleanStr (row Field.main_spinoff)),
    (Field.release_date, cleanStr (row Field.release_date)),
    (Field.studio, cleanStr (row Field.studio)),
    (Field.director, cleanStr (row Field.director)),
    (Field.producer, cleanStr (row Field.producer)),
    (Field.distributor_tw, cleanStr (row Field.distributor_tw)),
    (Field.genre_main, cleanStr (row Field.genre_main)),
    (Field.genre_sub, cleanStr (row Field.genre_sub)),
    (Field.remark, cleanStr (row Field.remark)),
    (Field.mal_id, malV),
    (Field.mal_link, cleanStr (row Field.mal_link)),
    (Field.anilist_link, cleanStr (row Field.anilist_link)),
    (Field.op, cleanStr (row Field.op)),
    (Field.ed, cleanStr (row Field.ed)),
    (Field.insert_ost, cleanStr (row Field.insert_ost)),
    (Field.seiyuu, cleanStr (row Field.seiyuu)),
    (Field.source_baha, cleanStr (row Field.source_baha)),
    (Field.source_netflix, cleanStr (row Field.source_netflix)) ]

/-- What normalizing one data row produces: the (possibly minted)
identifier, the `entry_data` mapping, the queued patches, and the
advanced fresh-id counter. -/
structure RowOut where
  sid : String
  data : List (Field × Val)
  patches : List Patch
  ctr : Nat

/-- Normalization of one data row (lines 340-446): identifier minting,
MAL-id extraction from the link, season inference, the movie
episode-count correction, and the `entry_data` assembly.  `pos` is the
0-based position among the data rows; queued cells use the sheet row
index `pos + 2` (`enumerate(..., start=2)`). -/
def processRow (hdr : Field → Bool) (counts : String → Nat) (fresh : Nat → String)
    (pos : Nat) (row : RawRow) (ctr : Nat) : RowOut :=
  let rawSid := pyStrip (row Field.system_id)
  let sid := if rawSid = "" then fresh ctr else rawSid
  let ctr1 := if rawSid = "" then ctr + 1 else ctr
  let p1 : List Patch :=
    if rawSid = "" ∧ hdr Field.system_id then
      [⟨pos + 2, Field.system_id, fresh ctr⟩] else []
  let rawMal := row Field.mal_id
  let rawLink := row Field.mal_link
  let extracted : Option Int :=
    if pyStrip rawMal = "" ∧ rawLink ≠ "" then extract_mal_id rawLink else Option.none
  let malP : Val × List Patch :=
    match extracted with
    | some n =>
      if n ≠ 0 then
        (Val.int n,
          if hdr Field.mal_id then [⟨pos + 2, Field.mal_id, toString n⟩] else [])
      else (cleanInt rawMal, [])
    | Option.none => (cleanInt rawMal, [])
  let seriesEnV := cleanStr (row Field.series_en)
  let seasonP : String × List Patch :=
    match inferSeason (row Field.series_season) (row Field.series_season_en)
        (row Field.series_season_cn) seriesEnV counts with
    | some s =>
      (s, if hdr Field.series_season then [⟨pos + 2, Field.series_season, s⟩] else [])
    | Option.none => (row Field.series_season, [])
  let atv := cleanStr (row Field.airing_type)
  let ep0 := cleanInt (row Field.ep_total)
  let isMovie : Bool := match atv with
    | Val.str s => lowerStr s = "movie"
    | _ => false
  let epP : Val × List Patch :=
    if isMovie ∧ ep0 ≠ Val.int 1 then
      (Val.int 1, if hdr Field.ep_total then [⟨pos + 2, Field.ep_total, "1"⟩] else [])
    else (ep0, [])
  { sid := sid,
    data := buildEntryData row sid seasonP.1 atv epP.1 malP.1,
    patches := p1 ++ malP.2 ++ seasonP.2 ++ epP.2,
    ctr := ctr1 }

/-- First match in an association list (`query(...).first()` /
the session identity map). -/
def lookupAssoc (l : List (String × Entry)) (k : String) : Option Entry :=
  (l.find? fun p => p.1 == k).map Prod.snd

/-- Replace the value stored for a key, or append it. -/
def setAssoc (l : List (String × Entry)) (k : String) (e : Entry) :
    List (String × Entry) :=
  if (l.find? fun p => p.1 == k).isSome then
    l.map fun p => if p.1 == k then (k, e) else p
  else l ++ [(k, e)]

/-- In-flight state of the reconciliation loop: the fresh-id counter,
queued patches, the created/updated counters, the session's loaded and
mutated existing records (`dirty`, the identity map) and its pending
new records (`news`, invisible to queries since `autoflush=False`). -/
structure LoopSt where
  ctr : Nat
  patches : List Patch
  added : Nat
  updated : Nat
  dirty : List (String × Entry)
  news : List (String × Entry)

/-- The find-or-create step (lines 448-464): a query miss on the
committed store and the identity map means create (which raises, see
`declarativeNew`); a hit merges with the sticky-field policy. -/
def reconcileStep (db : List (String × Entry)) (st : LoopSt) (sid : String)
    (data : List (Field × Val)) : Except String LoopSt :=
  match lookupAssoc st.dirty sid with
  | some e =>
    Except.ok { st with dirty := setAssoc st.dirty sid (mergeEntry e data),
                        updated := st.updated + 1 }
  | Option.none =>
    match lookupAssoc db sid with
    | some e =>
      Except.ok { st with dirty := setAssoc st.dirty sid (mergeEntry e data),
                          updated := st.updated + 1 }
    | Option.none =>
      match declarativeNew data with
      | Except.ok e =>
        Except.ok { st with news := st.news ++ [(sid, e)],
                            added := st.added + 1 }
      | Except.error m => Except.error m

/-- The reconciliation loop over the data rows (lines 339-464), with
the injected failure raising upon reaching row `pos`. -/
def runRows (db : List (String × Entry)) (hdr : Field → Bool)
    (counts : String → Nat) (fresh : Nat → String) (fp : FailPoint) :
    List RawRow → Nat → LoopSt → Except String LoopSt
  | [], _, st => Except.ok st
  | r :: rs, pos, st =>
    if fp = FailPoint.atRow pos then
      Except.error "injected failure in reconciliation loop"
    else
      let ro := processRow hdr counts fresh pos r st.ctr
      match reconcileStep db st ro.sid ro.data with
      | Except.error m => Except.error m
      | Except.ok st1 =>
        runRows db hdr counts fresh fp rs (pos + 1)
          { st1 with ctr := ro.ctr, patches := st.patches ++ ro.patches }

/-- Split a list into chunks of `n` (the `chunk_size = 50` slicing of
lines 470-473). -/
def chunksOf (n : Nat) : List α → List (List α)
  | [] => []
  | x :: xs => (x :: xs.take (n - 1)) :: chunksOf n (xs.drop (n - 1))
termination_by l => l.length
decreasing_by simp [List.length_drop]; omega

/-- Replace the element at an index (no-op out of range). -/
def modifyAt (f : α → α) : Nat → List α → List α
  | _, [] => []
  | 0, x :: xs => f x :: xs
  | n + 1, x :: xs => x :: modifyAt f n xs

/-- Write one queued cell into the sheet (patch row indices start at
2 for the first data row). -/
def applyPatch (sheet : List RawRow) (p : Patch) : List RawRow :=
  modifyAt (fun r => Function.update r p.field p.value) (p.rowIdx - 2) sheet

/-- Write a batch of queued cells. -/
def applyPatches (sheet : List RawRow) (ps : List Patch) : List RawRow :=
  ps.foldl applyPatch sheet

/-- The chunked flush (lines 466-473): one `update_cells` call per
chunk; the injected failure raises upon the `j`-th call, leaving
earlier chunks written.  Returns the sheet and whether it failed. -/
def flushChunks (fp : FailPoint) :
    List (List Patch) → Nat → List RawRow → List RawRow × Bool
  | [], _, sheet => (sheet, false)
  | ch :: chs, j, sheet =>
    if fp = FailPoint.atFlushChunk j then (sheet, true)
    else flushChunks fp chs (j + 1) (applyPatches sheet ch)

/-- Models `db.commit()` (line 475): applies the dirty updates and inserts the
pending new records, failing on a primary-key conflict among the
inserts (or at the injected commit failure). -/
def commitSession (fp : FailPoint) (db dirty news : List (String × Entry)) :
    Except String (List (String × Entry)) :=
  if fp = FailPoint.atCommit then Except.error "injected failure at commit"
  else if (news.map Prod.fst).Nodup ∧
      ∀ k ∈ news.map Prod.fst, (lookupAssoc db k).isNone then
    Except.ok ((db.map fun p => (p.1, (lookupAssoc dirty p.1).getD p.2)) ++ news)
  else Except.error "IntegrityError: duplicate primary key"

/-- A row of the `Anime Series` tab (its `system_id` and `series_en`
cells; the other columns are left to manual curation and never read). -/
structure SeriesRow where
  sid : String
  name : String
deriving DecidableEq, Repr

/-- Pass 1 of `populate_anime_series_tab` (lines 163-182): mint
identifiers for existing hub rows lacking one, and collect the set of
series names already present. -/
def popPhase1 (fresh : Nat → String) :
    List SeriesRow → Nat → List SeriesRow × List String × Nat
  | [], ctr => ([], [], ctr)
  | r :: rs, ctr =>
    let rCtr : SeriesRow × Nat :=
      if pyStrip r.sid = "" then ({ r with sid := fresh ctr }, ctr + 1) else (r, ctr)
    let names : List String :=
      match cleanStr r.name with
      | Val.str n => [n]
      | _ => []
    let rest := popPhase1 fresh rs rCtr.2
    (rCtr.1 :: rest.1, names ++ rest.2.1, rest.2.2)

/-- Pass 2 of `populate_anime_series_tab` (lines 185-213): append one
hub row, with a fresh identifier, per batch series name not yet
tracked; the tracker grows immediately to avoid duplicates. -/
def popPhase2 (fresh : Nat → String) :
    List RawRow → List String → Nat → List SeriesRow × Nat
  | [], _, ctr => ([], ctr)
  | d :: ds, tracker, ctr =>
    match cleanStr (d Field.series_en) with
    | Val.str n =>
      if n ∈ tracker then popPhase2 fresh ds tracker ctr
      else
        let rest := popPhase2 fresh ds (n :: tracker) (ctr + 1)
        (⟨fresh ctr, n⟩ :: rest.1, rest.2)
    | _ => popPhase2 fresh ds tracker ctr

/-- Models `populate_anime_series_tab(spreadsheet, anime_row_dicts)`. -/
def populateSeriesTab (fresh : Nat → String) (ctr : Nat)
    (tab : List SeriesRow) (rows : List RawRow) : List SeriesRow × Nat :=
  let ph1 := popPhase1 fresh tab ctr
  let ph2 := popPhase2 fresh rows ph1.2.1 ph1.2.2
  (ph1.1 ++ ph2.1, ph2.2)

/-- The structured counts returned on success (lines 485-489 report
`added + updated` as `rows_updated`). -/
structure SyncResult where
  added : Nat
  updated : Nat
  enriched : Nat
deriving DecidableEq, Repr

/-- Everything a run reads: the fetched main tab (`sheetEmpty` is the
`if not rows` test, `hdr` is membership in the header row, `dataRows`
the header-keyed data rows), the hub tab, the committed store, the
metadata service and the UUID supply. -/
structure SyncConfig where
  sheetEmpty : Bool
  hdr : Field → Bool
  dataRows : List RawRow
  seriesTab : List SeriesRow
  db : List (String × Entry)
  fetch : Int → Option MalData
  fresh : Nat → String

/-- Everything observable after a run: the returned value (or the
re-raised error), the committed store, both sheets, the queued patches
of the run and the final fresh-id counter. -/
structure SyncOut where
  res : Except String (Option SyncResult)
  db : List (String × Entry)
  sheet : List RawRow
  seriesTab : List SeriesRow
  patches : List Patch
  ctr : Nat

/-- Models `sync_sheet_to_db()` under an injected failure point: early return
on an empty tab (lines 307-309); hub-tab population (line 328); the
reconciliation loop, chunked flush and commit inside `try`, whose
`except` branch rolls the session back — the committed store is
returned unchanged — and re-raises (lines 491-494); then enrichment,
which commits separately (line 290). -/
def runSync (cfg : SyncConfig) (fp : FailPoint) (ctr0 : Nat) : SyncOut :=
  if cfg.sheetEmpty then
    ⟨Except.ok Option.none, cfg.db, cfg.dataRows, cfg.seriesTab, [], ctr0⟩
  else
    let counts := seriesCounts cfg.dataRows
    let tabCtr := populateSeriesTab cfg.fresh ctr0 cfg.seriesTab cfg.dataRows
    match runRows cfg.db cfg.hdr counts cfg.fresh fp cfg.dataRows 0
        ⟨tabCtr.2, [], 0, 0, [], []⟩ with
    | Except.error e => ⟨Except.error e, cfg.db, cfg.dataRows, tabCtr.1, [], tabCtr.2⟩
    | Except.ok st =>
      let flushed := flushChunks fp (chunksOf 50 st.patches) 0 cfg.dataRows
      if flushed.2 then
        ⟨Except.error "injected failure during patch flush", cfg.db, flushed.1,
          tabCtr.1, st.patches, st.ctr⟩
      else
        match commitSession fp cfg.db st.dirty st.news with
        | Except.error e =>
          ⟨Except.error e, cfg.db, flushed.1, tabCtr.1, st.patches, st.ctr⟩
        | Except.ok db1 =>
          ⟨Except.ok (some ⟨st.added, st.updated, enrichCount cfg.fetch db1⟩),
            db1.map (fun p => (p.1, enrichEntry cfg.fetch p.2)), flushed.1,
            tabCtr.1, st.patches, st.ctr⟩

/-- Did the run raise? -/
def exceptIsError : Except String (Option SyncResult) → Bool
  | Except.error _ => true
  | Except.ok _ => false

/-- The reconciliation loop as `runSync` invokes it (initial state
after the hub-tab population advanced the fresh-id counter). -/
def runRowsOf (cfg : SyncConfig) (fp : FailPoint) (ctr0 : Nat) :
    Except String LoopSt :=
  runRows cfg.db cfg.hdr (seriesCounts cfg.dataRows) cfg.fresh fp cfg.dataRows 0
    ⟨(populateSeriesTab cfg.fresh ctr0 cfg.seriesTab cfg.dataRows).2, [], 0, 0, [], []⟩

/-- Build a concrete sheet row from an association list (unlisted
headers are blank). -/
def rowWith (l : List (Field × String)) : RawRow :=
  fun f => ((l.find? fun p => p.1 == f).map Prod.snd).getD ""

/-- Build a concrete record from an association list (unlisted
attributes are null). -/
def entryWith (l : List (Field × Val)) : Entry :=
  fun f => ((l.find? fun p => p.1 == f).map Prod.snd).getD Val.none

/-- A sheet row with every cell blank. -/
def blankRow : RawRow := fun _ => ""

/-- A one-row update-only configuration (used to witness the rollback
behaviour): the row's identifier already exists in the store. -/
def c4Cfg : SyncConfig where
  sheetEmpty := false
  hdr := fun _ => true
  dataRows := [rowWith [(Field.system_id, "A"), (Field.airing_type, "Movie"),
    (Field.ep_total, "12")]]
  seriesTab := []
  db := [("A", entryWith [(Field.system_id, Val.str "A")])]
  fetch := fun _ => Option.none
  fresh := fun n => "uid-" ++ toString n

/-- A run configuration exhibiting the create-branch failure: one data
row whose `system_id` is blank, all headers present, empty store. -/
def bugCfg : SyncConfig where
  sheetEmpty := false
  hdr := fun _ => true
  dataRows := [blankRow]
  seriesTab := []
  db := []
  fetch := fun _ => Option.none
  fresh := fun n => "uid-" ++ toString n

/-! ## Theorems -/

/-- Fields absent from the incoming mapping are never touched by the
merge loop. -/
theorem mergeEntry_frame (data : List (Field × Val)) :
    ∀ (e : Entry) (f : Field), f ∉ data.map Prod.fst → mergeEntry e data f = e f := by
  induction data with
  | nil => intro e f _; rfl
  | cons kv rest ih =>
    intro e f h
    simp only [List.map_cons, List.mem_cons, not_or] at h
    obtain ⟨hk, hrest⟩ := h
    simp only [mergeEntry, List.foldl_cons]
    by_cases hc : kv.1 ∈ stickyFields ∧ e kv.1 ≠ Val.none
    · rw [if_pos hc]
      exact ih e f hrest
    · rw [if_neg hc]
      have hrec := ih (Function.update e kv.1 kv.2) f hrest
      simp only [mergeEntry] at hrec
      rw [hrec, Function.update_noteq hk]

/-- C1: the update branch of the reconciler overwrites a sticky
enrichment field (`cover_image_url`, `mal_rating`) only when the
stored value is absent, and overwrites every other field
unconditionally with the incoming value (even an absent one). -/
theorem merge_sticky_field_policy :
    ∀ (data : List (Field × Val)) (existing : Entry) (f : Field) (v : Val),
      (data.map Prod.fst).Nodup → (f, v) ∈ data →
      mergeEntry existing data f =
        if f ∈ stickyFields ∧ existing f ≠ Val.none then existing f else v := by
  intro data
  induction data with
  | nil =>
    intro existing f v _ hmem
    exact absurd hmem (List.not_mem_nil _)
  | cons kv rest ih =>
    intro existing f v hnd hmem
    simp only [List.map_cons, List.nodup_cons] at hnd
    obtain ⟨hknotin, hndrest⟩ := hnd
    simp only [mergeEntry, List.foldl_cons]
    rcases List.mem_cons.mp hmem with hEq | hmemRest
    · subst hEq
      have hfnotin : f ∉ rest.map Prod.fst := hknotin
      by_cases hc : f ∈ stickyFields ∧ existing f ≠ Val.none
      · rw [if_pos hc]
        have hfr := mergeEntry_frame rest existing f hfnotin
        simp only [mergeEntry] at hfr
        rw [hfr, if_pos hc]
      · rw [if_neg hc]
        have hfr := mergeEntry_frame rest (Function.update existing f v) f hfnotin
        simp only [mergeEntry] at hfr
        rw [hfr, Function.update_same, if_neg hc]
    · have hfin : f ∈ rest.map Prod.fst :=
        List.mem_map_of_mem Prod.fst hmemRest
      have hne : kv.1 ≠ f := fun hEq => hknotin (hEq ▸ hfin)
      by_cases hc : kv.1 ∈ stickyFields ∧ existing kv.1 ≠ Val.none
      · rw [if_pos hc]
        exact ih existing f v hndrest hmemRest
      · rw [if_neg hc]
        have hrec := ih (Function.update existing kv.1 kv.2) f v hndrest hmemRest
        simp only [mergeEntry] at hrec
        rw [hrec, Function.update_noteq hne.symm]

/-- C1 witness: an existing cover image survives an incoming value, and
an existing studio is erased by an incoming absent value. -/
theorem merge_sticky_field_policy_witness :
    mergeEntry (entryWith [(Field.cover_image_url, Val.str "X"), (Field.studio, Val.str "A")])
        [(Field.studio, Val.none), (Field.cover_image_url, Val.str "Y")]
        Field.cover_image_url = Val.str "X" ∧
    mergeEntry (entryWith [(Field.cover_image_url, Val.str "X"), (Field.studio, Val.str "A")])
        [(Field.studio, Val.none), (Field.cover_image_url, Val.str "Y")]
        Field.studio = Val.none := by
  constructor
  · rw [merge_sticky_field_policy
      [(Field.studio, Val.none), (Field.cover_image_url, Val.str "Y")]
      (entryWith [(Field.cover_image_url, Val.str "X"), (Field.studio, Val.str "A")])
      Field.cover_image_url (Val.str "Y") (by decide) (by decide)]
    decide
  · rw [merge_sticky_field_policy
      [(Field.studio, Val.none), (Field.cover_image_url, Val.str "Y")]
      (entryWith [(Field.cover_image_url, Val.str "X"), (Field.studio, Val.str "A")])
      Field.studio Val.none (by decide) (by decide)]
    decide

/-- The keys of `entry_data`, read off the mapping literal. -/
theorem buildEntryData_keys (row : RawRow) (sid seasonVal : String)
    (atv epVal malV : Val) :
    (buildEntryData row sid seasonVal atv epVal malV).map Prod.fst =
      [Field.system_id, Field.series_en, Field.series_season_en,
       Field.series_season_roman, Field.series_season_cn, Field.series_season,
       Field.airing_type, Field.my_progress, Field.airing_status, Field.ep_total,
       Field.ep_fin, Field.rating_mine, Field.main_spinoff, Field.release_date,
       Field.studio, Field.director, Field.producer, Field.distributor_tw,
       Field.genre_main, Field.genre_sub, Field.remark, Field.mal_id,
       Field.mal_link, Field.anilist_link, Field.op, Field.ed, Field.insert_ost,
       Field.seiyuu, Field.source_baha, Field.source_netflix] := rfl

/-- C9: `entry_data` has no key for `cover_image_url` or `mal_rating`,
so the update branch of the reconciler leaves both enrichment fields of
every existing record untouched, whatever their stored values. -/
theorem reconcile_update_never_writes_enrichment_fields
    (existing : Entry) (row : RawRow) (sid seasonVal : String) (atv epVal malV : Val) :
    Field.cover_image_url ∉ (buildEntryData row sid seasonVal atv epVal malV).map Prod.fst ∧
    Field.mal_rating ∉ (buildEntryData row sid seasonVal atv epVal malV).map Prod.fst ∧
    mergeEntry existing (buildEntryData row sid seasonVal atv epVal malV)
      Field.cover_image_url = existing Field.cover_image_url ∧
    mergeEntry existing (buildEntryData row sid seasonVal atv epVal malV)
      Field.mal_rating = existing Field.mal_rating := by
  have h1 : Field.cover_image_url ∉
      (buildEntryData row sid seasonVal atv epVal malV).map Prod.fst := by
    rw [buildEntryData_keys]; decide
  have h2 : Field.mal_rating ∉
      (buildEntryData row sid seasonVal atv epVal malV).map Prod.fst := by
    rw [buildEntryData_keys]; decide
  exact ⟨h1, h2, mergeEntry_frame _ existing _ h1, mergeEntry_frame _ existing _ h2⟩

/-- C5: the enrichment filter selects exactly the records with a
non-null external id whose cover is null, or whose rating is null while
the airing status is not the literal "Not Yet Aired" (null status
included, via the explicit `IS NULL` disjunct); in particular an
unaired record with a rating to fetch but a cover already present is
excluded. -/
theorem enrichment_selection_rule (e : Entry) :
    (eligibleForEnrichment e = true ↔
      (e Field.mal_id ≠ Val.none ∧
        (e Field.cover_image_url = Val.none ∨
          (e Field.mal_rating = Val.none ∧
            e Field.airing_status ≠ Val.str "Not Yet Aired")))) ∧
    (e Field.airing_status = Val.str "Not Yet Aired" →
      e Field.mal_rating = Val.none →
      e Field.cover_image_url ≠ Val.none →
      eligibleForEnrichment e = false) := by
  have hiff : eligibleForEnrichment e = true ↔
      (e Field.mal_id ≠ Val.none ∧
        (e Field.cover_image_url = Val.none ∨
          (e Field.mal_rating = Val.none ∧
            e Field.airing_status ≠ Val.str "Not Yet Aired"))) := by
    cases hst : e Field.airing_status <;>
      simp [eligibleForEnrichment, sqlNe, hst]
  refine ⟨hiff, fun h1 h2 h3 => ?_⟩
  rw [Bool.eq_false_iff]
  intro hcontra
  rcases (hiff.mp hcontra).2 with hcov | ⟨_, hst⟩
  · exact h3 hcov
  · exact hst h1

/-- C5 witness: unaired, null rating, cover present → not selected. -/
theorem enrichment_selection_rule_witness :
    eligibleForEnrichment (entryWith [(Field.mal_id, Val.int 1),
      (Field.airing_status, Val.str "Not Yet Aired"),
      (Field.cover_image_url, Val.str "http://img")]) = false :=
  (enrichment_selection_rule _).2 (by decide) (by decide) (by decide)

/-- A truthy value is present. -/
theorem pyTruthy_ne_none (v : Val) : pyTruthy v = true → v ≠ Val.none := by
  cases v <;> simp [pyTruthy]

/-- C6: the enrichment merge assigns a record field only from a present
(indeed truthy) fetched field; an absent fetched field leaves the
stored value alone, so it can never null out existing data. -/
theorem enrichment_merge_present_fields_only (e : Entry) (d : MalData) :
    ((mergeMalData e Option.none).1 = e) ∧
    (d.cover_image_url = Val.none →
      (mergeMalData e (some d)).1 Field.cover_image_url = e Field.cover_image_url) ∧
    (d.mal_rating = Val.none →
      (mergeMalData e (some d)).1 Field.mal_rating = e Field.mal_rating) ∧
    ((mergeMalData e (some d)).1 Field.cover_image_url ≠ e Field.cover_image_url →
      d.cover_image_url ≠ Val.none) ∧
    ((mergeMalData e (some d)).1 Field.mal_rating ≠ e Field.mal_rating →
      d.mal_rating ≠ Val.none) ∧
    (e Field.cover_image_url ≠ Val.none →
      (mergeMalData e (some d)).1 Field.cover_image_url ≠ Val.none) ∧
    (e Field.mal_rating ≠ Val.none →
      (mergeMalData e (some d)).1 Field.mal_rating ≠ Val.none) := by
  have hcov : (mergeMalData e (some d)).1 Field.cover_image_url
      = if pyTruthy d.cover_image_url then d.cover_image_url
        else e Field.cover_image_url := by
    by_cases hc : pyTruthy d.cover_image_url <;>
      by_cases hr : pyTruthy d.mal_rating <;>
        simp [mergeMalData, hc, hr, Function.update_apply]
  have hrat : (mergeMalData e (some d)).1 Field.mal_rating
      = if pyTruthy d.mal_rating then d.mal_rating
        else e Field.mal_rating := by
    by_cases hc : pyTruthy d.cover_image_url <;>
      by_cases hr : pyTruthy d.mal_rating <;>
        simp [mergeMalData, hc, hr, Function.update_apply]
  refine ⟨rfl, ?_, ?_, ?_, ?_, ?_, ?_⟩
  · intro h
    rw [hcov, h]
    simp [pyTruthy]
  · intro h
    rw [hrat, h]
    simp [pyTruthy]
  · intro hne hnone
    apply hne
    rw [hcov, hnone]
    simp [pyTruthy]
  · intro hne hnone
    apply hne
    rw [hrat, hnone]
    simp [pyTruthy]
  · intro hen
    by_cases hc : pyTruthy d.cover_image_url
    · rw [hcov, if_pos hc]
      exact pyTruthy_ne_none _ hc
    · rw [hcov, if_neg hc]
      exact hen
  · intro hen
    by_cases hr : pyTruthy d.mal_rating
    · rw [hrat, if_pos hr]
      exact pyTruthy_ne_none _ hr
    · rw [hrat, if_neg hr]
      exact hen

/-- C6 witness: a fetch result with an absent cover and a present
rating leaves the stored cover image intact. -/
theorem enrichment_merge_present_fields_only_witness :
    (mergeMalData (entryWith [(Field.cover_image_url, Val.str "X")])
      (some ⟨Val.none, Val.num 8⟩)).1 Field.cover_image_url = Val.str "X" :=
  ((enrichment_merge_present_fields_only
      (entryWith [(Field.cover_image_url, Val.str "X")])
      ⟨Val.none, Val.num 8⟩).2.1 rfl).trans (by decide)

/-- C10: an entirely empty main tab (not even a header row) makes the
sync return `None` with no hub-tab population, no record changes, no
patches and no enrichment. -/
theorem empty_sheet_early_return (cfg : SyncConfig) (fp : FailPoint) (ctr0 : Nat)
    (h : cfg.sheetEmpty = true) :
    runSync cfg fp ctr0 =
      ⟨Except.ok Option.none, cfg.db, cfg.dataRows, cfg.seriesTab, [], ctr0⟩ := by
  simp [runSync, h]

/-- C10 witness. -/
theorem empty_sheet_early_return_witness :
    runSync ⟨true, fun _ => false, [], [], [], fun _ => Option.none, fun _ => ""⟩
      FailPoint.noFail 0 =
      ⟨Except.ok Option.none, [], [], [], [], 0⟩ :=
  empty_sheet_early_return _ FailPoint.noFail 0 rfl

/-- C2: season inference for a blank season cell tries the English
`Season <n> [Part <m>]` pattern (case-insensitive, title-cased), then
the Chinese `第<numeral>季` pattern (CJK numerals one to ten), then
defaults to `"Season 1"` exactly when the row's series name occurs once
in the batch; with two or more occurrences and no pattern, nothing is
inferred, and a non-blank cell is never touched. -/
theorem season_inference_rules :
    (extract_season_from_title "Show Season 2 Part 1" = some "Season 2 Part 1") ∧
    (extract_season_from_title "show SEASON 2 part 1" = some "Season 2 Part 1") ∧
    (extract_season_from_cn_title "第三季" = some "Season 3") ∧
    (∀ (seasonCell en cn : String) (sv : Val) (c : String → Nat) (s : String),
      pyStrip seasonCell = "" → extract_season_from_title en = some s →
      inferSeason seasonCell en cn sv c = some s) ∧
    (∀ (seasonCell en cn : String) (sv : Val) (c : String → Nat) (s : String),
      pyStrip seasonCell = "" → extract_season_from_title en = Option.none →
      extract_season_from_cn_title cn = some s →
      inferSeason seasonCell en cn sv c = some s) ∧
    (∀ (seasonCell en cn name : String) (c : String → Nat),
      pyStrip seasonCell = "" → extract_season_from_title en = Option.none →
      extract_season_from_cn_title cn = Option.none → c name = 1 →
      inferSeason seasonCell en cn (Val.str name) c = some "Season 1") ∧
    (∀ (seasonCell en cn name : String) (c : String → Nat),
      pyStrip seasonCell = "" → extract_season_from_title en = Option.none →
      extract_season_from_cn_title cn = Option.none → 2 ≤ c name →
      inferSeason seasonCell en cn (Val.str name) c = Option.none) ∧
    (∀ (seasonCell en cn : String) (sv : Val) (c : String → Nat),
      pyStrip seasonCell ≠ "" → inferSeason seasonCell en cn sv c = Option.none) := by
  refine ⟨by decide, by decide, by decide, ?_, ?_, ?_, ?_, ?_⟩
  · intro seasonCell en cn sv c s h1 h2
    simp [inferSeason, h1, h2]
  · intro seasonCell en cn sv c s h1 h2 h3
    simp [inferSeason, h1, h2, h3]
  · intro seasonCell en cn name c h1 h2 h3 h4
    simp [inferSeason, h1, h2, h3, h4]
  · intro seasonCell en cn name c h1 h2 h3 h4
    have hne : ¬(c name = 1) := by omega
    simp [inferSeason, h1, h2, h3, hne]
  · intro seasonCell en cn sv c h1
    simp [inferSeason, h1]

/-- C2 witness: a blank cell, no English marker, and a Chinese title
with an Arabic numeral. -/
theorem season_inference_rules_witness :
    inferSeason " " "no marker" "第2季" Val.none (fun _ => 0) = some "Season 2" :=
  season_inference_rules.2.2.2.2.1 " " "no marker" "第2季" Val.none (fun _ => 0)
    "Season 2" (by decide) (by decide) (by decide)

/-- Every fetch event of the enrichment trace is immediately followed
by the unconditional two-second sleep. -/
theorem enrichTrace_fetch_then_sleep (ids : List Int) (fetch : Int → Option MalData) :
    ∀ (i : Nat) (ev : EnrichEvent), (enrichTrace ids fetch)[i]? = some ev →
      isFetchEvent ev = true →
      (enrichTrace ids fetch)[i + 1]? = some (EnrichEvent.sleepEv 2) := by
  induction ids with
  | nil =>
    intro i ev h _
    simp [enrichTrace] at h
  | cons id rest ih =>
    intro i ev h hf
    match i with
    | 0 => simp [enrichTrace]
    | 1 =>
      simp [enrichTrace] at h
      rw [← h] at hf
      simp [isFetchEvent] at hf
    | n + 2 =>
      have h' : (enrichTrace rest fetch)[n]? = some ev := by
        simpa [enrichTrace] using h
      have := ih n ev h' hf
      simpa [enrichTrace] using this

/-- C8: between any two fetch events of the enrichment trace there is a
two-second sleep event (at the position right after the earlier fetch),
whatever each fetch's outcome was. -/
theorem enrichment_pacing_between_fetches (ids : List Int)
    (fetch : Int → Option MalData) (i j : Nat) (evi evj : EnrichEvent)
    (hi : (enrichTrace ids fetch)[i]? = some evi) (hfi : isFetchEvent evi = true)
    (hj : (enrichTrace ids fetch)[j]? = some evj) (hfj : isFetchEvent evj = true)
    (hij : i < j) :
    (enrichTrace ids fetch)[i + 1]? = some (EnrichEvent.sleepEv 2) ∧ i + 1 < j := by
  have hs := enrichTrace_fetch_then_sleep ids fetch i evi hi hfi
  refine ⟨hs, ?_⟩
  rcases Nat.lt_or_ge (i + 1) j with h | h
  · exact h
  · exfalso
    have hEq : i + 1 = j := Nat.le_antisymm hij h
    rw [← hEq] at hj
    rw [hs] at hj
    have : evj = EnrichEvent.sleepEv 2 := by
      injection hj with h'
      exact h'.symm
    rw [this] at hfj
    simp [isFetchEvent] at hfj

/-- C8 witness: two consecutive entries whose fetches both failed (the
fetcher returns nothing) are still separated by the sleep. -/
theorem enrichment_pacing_between_fetches_witness :
    (enrichTrace [1, 2] (fun _ => Option.none))[1]? =
      some (EnrichEvent.sleepEv 2) ∧ 1 < 2 :=
  enrichment_pacing_between_fetches [1, 2] (fun _ => Option.none) 0 2
    (EnrichEvent.fetchEv 1 Option.none) (EnrichEvent.fetchEv 2 Option.none)
    rfl rfl rfl rfl (by decide)

/-- Performing `k` consecutive rate-limited attempts advances the retry loop by `k`
steps, logging the linear backoff waits. -/
theorem retryGo_skip429 {α : Type} (f : Nat → CallOutcome α) (name : String)
    (maxR : Nat) :
    ∀ (k attempt remaining : Nat) (waits : List Nat), k ≤ remaining →
      (∀ i, i < k → ∃ m, f (attempt + i) = CallOutcome.apiError m ∧ is429 m = true) →
      retryGo f name maxR attempt remaining waits =
        retryGo f name maxR (attempt + k) (remaining - k)
          (waits ++ backoffWaits attempt k) := by
  intro k
  induction k with
  | zero =>
    intro attempt remaining waits _ _
    simp [backoffWaits]
  | succ k ih =>
    intro attempt remaining waits hk hfail
    obtain ⟨m, hm, h429⟩ := hfail 0 (Nat.succ_pos k)
    rw [Nat.add_zero] at hm
    match remaining, hk with
    | r + 1, hk =>
      rw [retryGo, hm]
      simp only [h429, if_true]
      have hfail' : ∀ i, i < k →
          ∃ m', f (attempt + 1 + i) = CallOutcome.apiError m' ∧ is429 m' = true := by
        intro i hi
        have := hfail (i + 1) (Nat.succ_lt_succ hi)
        rwa [show attempt + (i + 1) = attempt + 1 + i by omega] at this
      rw [ih (attempt + 1) r (waits ++ [60 * (attempt + 1)])
        (Nat.le_of_succ_le_succ hk) hfail']
      rw [show attempt + 1 + k = attempt + (k + 1) by omega,
        Nat.succ_sub_succ]
      rw [backoffWaits, List.append_assoc, List.singleton_append]

/-- C3: the retry wrapper returns the success value after exactly as
many `60 × attempt`-second waits as there were rate-limited attempts
before it; a failure that is not rate-limit-classified propagates
immediately without further attempts; and all attempts rate-limited
raises the terminal error naming the operation and the budget, after
the full backoff sequence. -/
theorem retry_executor_contract {α : Type} (f : Nat → CallOutcome α)
    (name : String) (maxR : Nat) :
    (∀ (k : Nat) (v : α), k < maxR →
      (∀ i, i < k → ∃ m, f i = CallOutcome.apiError m ∧ is429 m = true) →
      f k = CallOutcome.ok v →
      execute_with_retry f name maxR = (Except.ok v, backoffWaits 0 k)) ∧
    (∀ (k : Nat) (m : String), k < maxR →
      (∀ i, i < k → ∃ m', f i = CallOutcome.apiError m' ∧ is429 m' = true) →
      ((f k = CallOutcome.apiError m ∧ is429 m = false) ∨
        f k = CallOutcome.otherError m) →
      execute_with_retry f name maxR =
        (Except.error (RetryErr.raised m), backoffWaits 0 k)) ∧
    ((∀ i, i < maxR → ∃ m, f i = CallOutcome.apiError m ∧ is429 m = true) →
      execute_with_retry f name maxR =
        (Except.error (RetryErr.exhausted name maxR), backoffWaits 0 maxR)) := by
  refine ⟨?_, ?_, ?_⟩
  · intro k v hk hfail hok
    have hskip := retryGo_skip429 f name maxR k 0 maxR [] (Nat.le_of_lt hk)
      (by simpa using hfail)
    rw [execute_with_retry, hskip]
    obtain ⟨r, hr⟩ : ∃ r, maxR - k = r + 1 := ⟨maxR - k - 1, by omega⟩
    rw [hr, retryGo]
    rw [Nat.zero_add, hok]
    simp
  · intro k m hk hfail herr
    have hskip := retryGo_skip429 f name maxR k 0 maxR [] (Nat.le_of_lt hk)
      (by simpa using hfail)
    rw [execute_with_retry, hskip]
    obtain ⟨r, hr⟩ : ∃ r, maxR - k = r + 1 := ⟨maxR - k - 1, by omega⟩
    rw [hr, retryGo, Nat.zero_add]
    rcases herr with ⟨hm, h429⟩ | hm
    · rw [hm]
      simp [h429]
    · rw [hm]
      simp
  · intro hfail
    have hskip := retryGo_skip429 f name maxR maxR 0 maxR [] (Nat.le_refl maxR)
      (by simpa using hfail)
    rw [execute_with_retry, hskip, Nat.sub_self, retryGo]
    simp

/-- C3 witness: two quota failures then success yields the value after
waits of 60 and 120 seconds under the default budget of 3. -/
theorem retry_executor_contract_witness :
    execute_with_retry retryWitnessF "get_all_values" 3 = (Except.ok 7, [60, 120]) := by
  have h := (retry_executor_contract retryWitnessF "get_all_values" 3).1 2 7
    (by decide)
    (fun i hi => by
      interval_cases i
      · exact ⟨"APIError: [429]: Quota exceeded", rfl, by decide⟩
      · exact ⟨"APIError: [429]: Quota exceeded", rfl, by decide⟩)
    rfl
  exact h

/-- A failure injected at any data row makes the reconciliation loop
raise (possibly earlier, at an organic create failure). -/
theorem runRows_atRow_fails (db : List (String × Entry)) (hdr : Field → Bool)
    (counts : String → Nat) (fresh : Nat → String) :
    ∀ (rows : List RawRow) (pos0 i : Nat) (st : LoopSt), i < rows.length →
      ∃ e, runRows db hdr counts fresh (FailPoint.atRow (pos0 + i)) rows pos0 st
        = Except.error e := by
  intro rows
  induction rows with
  | nil =>
    intro pos0 i st hi
    exact absurd hi (by simp)
  | cons r rs ih =>
    intro pos0 i st hi
    cases i with
    | zero =>
      exact ⟨"injected failure in reconciliation loop", by simp [runRows]⟩
    | succ i' =>
      have hne : FailPoint.atRow (pos0 + (i' + 1)) = FailPoint.atRow pos0 → False := by
        intro h
        have := FailPoint.atRow.inj h
        omega
      rw [runRows, if_neg hne]
      cases hstep : reconcileStep db st
          (processRow hdr counts fresh pos0 r st.ctr).sid
          (processRow hdr counts fresh pos0 r st.ctr).data with
      | error m =>
        simp only [hstep]
        exact ⟨m, rfl⟩
      | ok st1 =>
        simp only [hstep]
        have := ih (pos0 + 1) i'
          { st1 with ctr := (processRow hdr counts fresh pos0 r st.ctr).ctr,
                     patches := st.patches ++ (processRow hdr counts fresh pos0 r st.ctr).patches }
          (by simpa using Nat.lt_of_succ_lt_succ (Nat.succ_lt_succ (by simpa using hi)))
        rwa [show pos0 + 1 + i' = pos0 + (i' + 1) by omega] at this

/-- A failure injected at flush chunk `j` leaves exactly the first `j`
chunks written to the sheet. -/
theorem flushChunks_atChunk :
    ∀ (chunks : List (List Patch)) (j0 j : Nat) (sheet : List RawRow),
      j < chunks.length →
      flushChunks (FailPoint.atFlushChunk (j0 + j)) chunks j0 sheet =
        ((chunks.take j).foldl applyPatches sheet, true) := by
  intro chunks
  induction chunks with
  | nil =>
    intro j0 j sheet hj
    exact absurd hj (by simp)
  | cons ch chs ih =>
    intro j0 j sheet hj
    cases j with
    | zero => simp [flushChunks]
    | succ j' =>
      have hne : FailPoint.atFlushChunk (j0 + (j' + 1)) = FailPoint.atFlushChunk j0 → False := by
        intro h
        have := FailPoint.atFlushChunk.inj h
        omega
      rw [flushChunks, if_neg hne]
      have := ih (j0 + 1) j' (applyPatches sheet ch) (by simpa using hj)
      rw [show j0 + 1 + j' = j0 + (j' + 1) by omega] at this
      rw [this]
      simp

/-- Without an injected flush failure every chunk is written. -/
theorem flushChunks_complete (fp : FailPoint)
    (h : ∀ j, fp ≠ FailPoint.atFlushChunk j) :
    ∀ (chunks : List (List Patch)) (j0 : Nat) (sheet : List RawRow),
      flushChunks fp chunks j0 sheet = (chunks.foldl applyPatches sheet, false) := by
  intro chunks
  induction chunks with
  | nil => intro j0 sheet; simp [flushChunks]
  | cons ch chs ih =>
    intro j0 sheet
    rw [flushChunks, if_neg (h j0)]
    rw [ih (j0 + 1) (applyPatches sheet ch)]
    simp

/-- C4: a failure during the reconciliation loop, the chunked patch
flush, or the commit makes the run raise while the committed store is
returned unchanged (the session rollback), and the spreadsheet keeps
exactly the patch chunks flushed before the failure — nothing is
undone there. -/
theorem sync_failure_rolls_back_store (cfg : SyncConfig) (ctr0 : Nat)
    (he : cfg.sheetEmpty = false) :
    (∀ pos, pos < cfg.dataRows.length →
      exceptIsError (runSync cfg (FailPoint.atRow pos) ctr0).res = true ∧
      (runSync cfg (FailPoint.atRow pos) ctr0).db = cfg.db ∧
      (runSync cfg (FailPoint.atRow pos) ctr0).sheet = cfg.dataRows) ∧
    (∀ (j : Nat) (st : LoopSt),
      runRowsOf cfg (FailPoint.atFlushChunk j) ctr0 = Except.ok st →
      j < (chunksOf 50 st.patches).length →
      exceptIsError (runSync cfg (FailPoint.atFlushChunk j) ctr0).res = true ∧
      (runSync cfg (FailPoint.atFlushChunk j) ctr0).db = cfg.db ∧
      (runSync cfg (FailPoint.atFlushChunk j) ctr0).sheet =
        ((chunksOf 50 st.patches).take j).foldl applyPatches cfg.dataRows) ∧
    (∀ st : LoopSt, runRowsOf cfg FailPoint.atCommit ctr0 = Except.ok st →
      exceptIsError (runSync cfg FailPoint.atCommit ctr0).res = true ∧
      (runSync cfg FailPoint.atCommit ctr0).db = cfg.db ∧
      (runSync cfg FailPoint.atCommit ctr0).sheet =
        (chunksOf 50 st.patches).foldl applyPatches cfg.dataRows) := by
  refine ⟨?_, ?_, ?_⟩
  · intro pos hpos
    obtain ⟨e, herr⟩ := by
      have h0 := runRows_atRow_fails cfg.db cfg.hdr (seriesCounts cfg.dataRows)
        cfg.fresh cfg.dataRows 0 pos
        ⟨(populateSeriesTab cfg.fresh ctr0 cfg.seriesTab cfg.dataRows).2,
          [], 0, 0, [], []⟩ hpos
      rwa [Nat.zero_add] at h0
    have hrun : runSync cfg (FailPoint.atRow pos) ctr0 =
        ⟨Except.error e, cfg.db, cfg.dataRows,
          (populateSeriesTab cfg.fresh ctr0 cfg.seriesTab cfg.dataRows).1,
          [], (populateSeriesTab cfg.fresh ctr0 cfg.seriesTab cfg.dataRows).2⟩ := by
      simp only [runSync, he, Bool.false_eq_true, if_false]
      rw [herr]
    rw [hrun]
    exact ⟨rfl, rfl, rfl⟩
  · intro j st hok hj
    rw [runRowsOf] at hok
    have hflush := by
      have h0 := flushChunks_atChunk (chunksOf 50 st.patches) 0 j cfg.dataRows hj
      rwa [Nat.zero_add] at h0
    have hrun : runSync cfg (FailPoint.atFlushChunk j) ctr0 =
        ⟨Except.error "injected failure during patch flush", cfg.db,
          ((chunksOf 50 st.patches).take j).foldl applyPatches cfg.dataRows,
          (populateSeriesTab cfg.fresh ctr0 cfg.seriesTab cfg.dataRows).1,
          st.patches, st.ctr⟩ := by
      simp only [runSync, he, Bool.false_eq_true, if_false]
      rw [hok]
      simp [hflush]
    rw [hrun]
    exact ⟨rfl, rfl, rfl⟩
  · intro st hok
    rw [runRowsOf] at hok
    have hflush := flushChunks_complete FailPoint.atCommit (by intro j h; cases h)
      (chunksOf 50 st.patches) 0 cfg.dataRows
    have hrun : runSync cfg FailPoint.atCommit ctr0 =
        ⟨Except.error "injected failure at commit", cfg.db,
          (chunksOf 50 st.patches).foldl applyPatches cfg.dataRows,
          (populateSeriesTab cfg.fresh ctr0 cfg.seriesTab cfg.dataRows).1,
          st.patches, st.ctr⟩ := by
      simp only [runSync, he, Bool.false_eq_true, if_false]
      rw [hok]
      simp [hflush, commitSession]
    rw [hrun]
    exact ⟨rfl, rfl, rfl⟩

/-- C4 witness: a failure injected at the first data row of a
one-row run raises, leaves the store untouched and flushes nothing. -/
theorem sync_failure_rolls_back_store_witness :
    exceptIsError (runSync c4Cfg (FailPoint.atRow 0) 0).res = true ∧
    (runSync c4Cfg (FailPoint.atRow 0) 0).db = c4Cfg.db ∧
    (runSync c4Cfg (FailPoint.atRow 0) 0).sheet = c4Cfg.dataRows :=
  (sync_failure_rolls_back_store c4Cfg 0 rfl).1 0 (by decide)

/-- C7 (code bug): on a sheet whose one data row has a blank
identifier, the first run mints an identifier and queues its patch, but
the create branch raises — `entry_data` carries the key
`series_season`, which is not an attribute of `AnimeEntry`, so
`AnimeEntry(**entry_data)` is a `TypeError` — and the run rolls back
before flushing anything.  The second run therefore sees the identical
spreadsheet and takes the blank-identifier branch again, queueing an
identifier patch instead of the claimed zero. -/
theorem create_branch_type_error :
    (runSync bugCfg FailPoint.noFail 0).res =
      Except.error "TypeError: invalid keyword argument for AnimeEntry" ∧
    (runSync bugCfg FailPoint.noFail 0).db = bugCfg.db ∧
    (runSync bugCfg FailPoint.noFail 0).sheet = bugCfg.dataRows ∧
    (processRow bugCfg.hdr (seriesCounts bugCfg.dataRows) bugCfg.fresh 0 blankRow
      0).patches = [⟨2, Field.system_id, "uid-0"⟩] ∧
    Field.series_season ∉ animeEntryColumns ∧
    (Field.series_season, cleanStr (blankRow Field.series_season)) ∈
      (processRow bugCfg.hdr (seriesCounts bugCfg.dataRows) bugCfg.fresh 0 blankRow
        0).data ∧
    declarativeNew (processRow bugCfg.hdr (seriesCounts bugCfg.dataRows) bugCfg.fresh
        0 blankRow 0).data =
      Except.error "TypeError: invalid keyword argument for AnimeEntry" :=
  ⟨rfl, rfl, rfl, by decide, by decide, by decide, rfl⟩

end AnimeSite
